import Mathlib

/-!
Shallow embedding of the flyte-client command-dispatch core
(`flyte/commands.go`, `flyte/pack.go`, and `client.TakeAction` from the
client package), together with theorems settling the specification claims.

Modelling conventions:
- Go machine effects (network calls, sleeps, goroutine spawns, process
  exit via `logger.Fatal`) are made explicit: the remote client is an
  oracle scripted by a list of results, and loop functions return traces
  recording how many remote calls and sleeps happened and which actions
  were handed to execution units.
- A Go panic value (`interface{}`) is modelled by `GoValue`; `formatV`
  models `fmt.Sprintf` with the `%v` verb on such a value.
- `json.RawMessage` (opaque raw bytes) is modelled by `String`.
-/

namespace Flyte

/-- Models a value of Go dynamic type `interface\x7b\x7d` as it can be thrown by
`panic(v)` or carried in an `Event.Payload`. -/
inductive GoValue where
  | str : String → GoValue
  | int : Int → GoValue
  | err : String → GoValue
  deriving DecidableEq, Repr

/-- Models `fmt.Sprintf` with verb `%v` applied to a `GoValue`: a string prints
as itself, an integer in decimal, an error by its message. -/
def formatV : GoValue → String
  | .str s => s
  | .int n => toString n
  | .err m => m

/-- `client.Link` from the client package data model. -/
structure Link where
  href : String
  rel : String
  deriving DecidableEq, Repr

/-- `client.Action`: a unit of work handed out by the flyte server.
`input` models the `json.RawMessage` input. -/
structure Action where
  commandName : String
  input : String
  links : List Link
  deriving DecidableEq, Repr

/-- `flyte.EventDef`: the definition (name) of an event; the optional help
URL plays no role in the dispatch core. -/
structure EventDef where
  name : String
  deriving DecidableEq, Repr

/-- `flyte.Event`: the event data a pack sends, an event definition plus an
arbitrary payload (`interface\x7b\x7d`, modelled by `GoValue`). -/
structure Event where
  eventDef : EventDef
  payload : GoValue
  deriving DecidableEq, Repr

/-- `client.Event`: the wire shape posted to the flyte server — a name and
a payload. -/
structure ClientEvent where
  name : String
  payload : GoValue
  deriving DecidableEq, Repr

/-- The `fatalEventName` constant from `flyte/pack.go`. -/
def fatalEventName : String := "FATAL"

/-- `flyte.NewFatalEvent` from `flyte/pack.go`: wraps a payload in an event
named `FATAL`. -/
def NewFatalEvent (payload : GoValue) : Event :=
  { eventDef := { name := fatalEventName }, payload := payload }

/-- The outcome of invoking a Go `CommandHandler`: either it returns an
`Event` normally, or it panics with some value. -/
inductive HandlerOutcome where
  | returns : Event → HandlerOutcome
  | panics : GoValue → HandlerOutcome

/-- `flyte.CommandHandler`: a function from the raw JSON input to an event,
which may also panic (captured in `HandlerOutcome`). -/
abbrev CommandHandler : Type := String → HandlerOutcome

/-- `flyte.Command`: a named command bound to a handler. Output events and
help URL play no role in dispatch. -/
structure Command where
  name : String
  handler : CommandHandler

/-- The `map[string]CommandHandler` built by `createHandlersMap`, modelled
as an association list with at most one entry per key. -/
abbrev HandlersMap : Type := List (String × CommandHandler)

/-- A single write `m[k] = v` into a Go map: replaces the existing entry
for `k` if present, otherwise appends a new entry. -/
def mapWrite (m : HandlersMap) (k : String) (v : CommandHandler) : HandlersMap :=
  if m.any (fun p => p.1 == k) then
    m.map (fun p => if p.1 == k then (k, v) else p)
  else
    m ++ [(k, v)]

/-- A Go map read `handlers[name]`. -/
def lookupHandler (m : HandlersMap) (k : String) : Option CommandHandler :=
  (m.find? (fun p => p.1 == k)).map Prod.snd

/-- `pack.createHandlersMap` from `flyte/commands.go`: folds the declared
command list into a name→handler map, one Go map write per command in list
order. -/
def createHandlersMap (commands : List Command) : HandlersMap :=
  commands.foldl (fun m c => mapWrite m c.name c.handler) []

/-- The keys of the handlers map (Go `fmt` prints map keys in sorted order;
the handler values are function pointers and print as addresses, modelled
by a fixed placeholder). -/
def handlersMapText (m : HandlersMap) : String :=
  "map[" ++
    String.intercalate " "
      (((m.map Prod.fst).mergeSort (fun a b => a ≤ b)).map (fun k => k ++ ":<handler>"))
    ++ "]"

/-- The message of the error built by `handleAction` when no handler is
registered for the incoming command name:
`fmt.Errorf("no handler could be found for command %q in %v", name, handlers)`. -/
def noHandlerMessage (name : String) (handlers : HandlersMap) : String :=
  "no handler could be found for command \"" ++ name ++ "\" in " ++ handlersMapText handlers

/-- `pack.completeAction` from `flyte/commands.go`: converts the pack-level
`Event` into the wire `client.Event` and posts it; a post failure is only
logged, so the observable outcome is the posted event. -/
def completeAction (_a : Action) (event : Event) : ClientEvent :=
  { name := event.eventDef.name, payload := event.payload }

/-- The body of `pack.handleAction` (before the deferred `handlePanic`
runs): `.ok e` means it completed the action by posting `e`; `.error v`
means a handler panic with value `v` escaped the body. -/
def handleActionBody (handlers : HandlersMap) (a : Action) : Except GoValue ClientEvent :=
  match lookupHandler handlers a.commandName with
  | none =>
      .ok (completeAction a (NewFatalEvent (.str (noHandlerMessage a.commandName handlers))))
  | some handler =>
      match handler a.input with
      | .returns outputEvent => .ok (completeAction a outputEvent)
      | .panics v => .error v

/-- `pack.handlePanic` from `flyte/commands.go`: the deferred recovery. A
panic value `v` escaping the body is recovered and the action is completed
with a fatal event whose payload is `fmt.Sprintf("%v", v)`. -/
def handlePanic (a : Action) : Except GoValue ClientEvent → ClientEvent
  | .ok e => e
  | .error v => completeAction a (NewFatalEvent (.str (formatV v)))

/-- `pack.handleAction` from `flyte/commands.go`: runs the body under the
deferred `handlePanic`, so it always results in exactly one completion
post and never lets a panic escape. -/
def handleAction (handlers : HandlersMap) (a : Action) : ClientEvent :=
  handlePanic a (handleActionBody handlers a)

/-- An error returned by the client package: `client.NotFoundError` is a
distinguished type (checked by a type assertion in `getNextAction`); every
other error is `other`. -/
inductive ClientError where
  | notFound : String → ClientError
  | other : String → ClientError
  deriving DecidableEq, Repr

/-- The pair returned by one call of `client.TakeAction()`:
`(*Action, error)`, each possibly nil. -/
abbrev TakeActionResult : Type := Option Action × Option ClientError

/-- An HTTP response as far as `client.TakeAction` inspects it: a status
code and an opaque body. -/
structure Response where
  statusCode : Nat
  body : String
  deriving DecidableEq, Repr

/-- `client.TakeAction` from the client package. Parameters model its
collaborators: `takeActionURLSet` — whether `c.takeActionURL` was
initialised; `postResult` — the outcome of `c.post(c.takeActionURL, nil)`;
`decode` — `json.NewDecoder(resp.Body).Decode(a)`, which always yields the
(possibly partially populated) `Action` that `a` points to together with
an optional decode error. On HTTP 200 the code returns `a, err` as decode
produced them — so a non-nil action can be paired with a non-nil error. -/
def TakeAction (takeActionURLSet : Bool) (postResult : Except String Response)
    (decode : String → Action × Option String) : TakeActionResult :=
  if takeActionURLSet = false then
    (none, some (.other "takeActionURL not initialised - you must post a pack def first"))
  else
    match postResult with
    | .error e => (none, some (.other ("error taking action: " ++ e)))
    | .ok resp =>
      if resp.statusCode = 200 then
        let decoded := decode resp.body
        (some decoded.1, decoded.2.map ClientError.other)
      else if resp.statusCode = 204 then
        (none, none)
      else if resp.statusCode = 404 then
        (none, some (.notFound "resource not found at takeActionURL"))
      else
        (none, some (.other "error taking action, unexpected response"))

/-- How `pack.getNextAction` leaves its inner loop on one scripted result:
`true` exactly when the `a == nil || err != nil` branch sleeps and
continues polling (i.e. the result is neither a dispatchable action nor a
fatal `NotFoundError`). -/
def retryable : TakeActionResult → Bool
  | (_, some (.notFound _)) => false
  | (some _, none) => false
  | _ => true

/-- How `pack.getNextAction` can end, given a finite script of
`TakeAction` results. -/
inductive NextOutcome where
  | found : Action → List TakeActionResult → NextOutcome
  | fatal : NextOutcome
  | exhausted : NextOutcome
  deriving Repr

/-- `pack.getNextAction` from `flyte/commands.go`, run against a finite
script of `TakeAction` results. Returns how the loop ended (the action it
returned together with the unconsumed script, or `fatal` for the
`logger.Fatal` process exit on a `NotFoundError`, or `exhausted` when the
script ran out mid-poll), the number of `TakeAction` calls issued, and the
number of fixed-interval sleeps performed. -/
def getNextAction : List TakeActionResult → NextOutcome × Nat × Nat
  | [] => (.exhausted, 0, 0)
  | r :: rest =>
    match r with
    | (_, some (.notFound _)) => (.fatal, 1, 0)
    | (some a, none) => (.found a rest, 1, 0)
    | _ =>
      let t := getNextAction rest
      (t.1, t.2.1 + 1, t.2.2 + 1)

/-- The observable trace of the dispatcher's poll loop
(`handleCommandActions`) over a finite script: how many `TakeAction` calls
it issued, how many polling-interval sleeps it performed, which actions it
handed (in fetch order) to freshly spawned execution units, and whether it
hit the fatal `NotFoundError` process exit. -/
structure LoopTrace where
  takeCalls : Nat
  sleeps : Nat
  dispatched : List Action
  fatal : Bool
  deriving DecidableEq, Repr

theorem getNextAction_found_length : ∀ {s : List TakeActionResult} {a : Action}
    {rest : List TakeActionResult} {c k : Nat},
    getNextAction s = (.found a rest, c, k) → rest.length < s.length := by
  intro s
  induction s with
  | nil =>
    intro a rest c k h
    simp [getNextAction] at h
  | cons r s ih =>
    intro a rest c k h
    rcases hg : getNextAction s with ⟨o, c2, k2⟩
    rcases r with ⟨oa, oe⟩
    match oa, oe with
    | _, some (ClientError.notFound m) =>
      simp [getNextAction] at h
    | some a0, none =>
      simp only [getNextAction] at h
      rw [Prod.mk.injEq] at h
      rcases h with ⟨h1, -⟩
      rw [NextOutcome.found.injEq] at h1
      rcases h1 with ⟨-, h1⟩
      rw [← h1]
      simp
    | none, none =>
      simp only [getNextAction, hg] at h
      rw [Prod.mk.injEq] at h
      rcases h with ⟨h1, -⟩
      have := ih (show getNextAction s = (NextOutcome.found a rest, c2, k2) by rw [hg, h1])
      exact Nat.lt_succ_of_lt this
    | none, some (ClientError.other m) =>
      simp only [getNextAction, hg] at h
      rw [Prod.mk.injEq] at h
      rcases h with ⟨h1, -⟩
      have := ih (show getNextAction s = (NextOutcome.found a rest, c2, k2) by rw [hg, h1])
      exact Nat.lt_succ_of_lt this
    | some a0, some (ClientError.other m) =>
      simp only [getNextAction, hg] at h
      rw [Prod.mk.injEq] at h
      rcases h with ⟨h1, -⟩
      have := ih (show getNextAction s = (NextOutcome.found a rest, c2, k2) by rw [hg, h1])
      exact Nat.lt_succ_of_lt this

/-- The poll-and-dispatch loop body of `pack.handleCommandActions` from
`flyte/commands.go`, run against a finite script of `TakeAction` results:
`for \x7b a := p.getNextAction(); go p.handleAction(a, handlers) \x7d`.
Each action obtained from `getNextAction` is recorded as dispatched (handed
to a freshly spawned execution unit) and the loop immediately polls again
without waiting on that unit; it stops only on the fatal `NotFoundError`
exit or when the script runs out. The `handlers` map is passed to the
spawned units and never read by the loop itself. -/
def pollLoop (handlers : HandlersMap) (script : List TakeActionResult) : LoopTrace :=
  match hg : getNextAction script with
  | (.found a rest, c, s) =>
    let t := pollLoop handlers rest
    { takeCalls := c + t.takeCalls, sleeps := s + t.sleeps,
      dispatched := a :: t.dispatched, fatal := t.fatal }
  | (.fatal, c, s) =>
    { takeCalls := c, sleeps := s, dispatched := [], fatal := true }
  | (.exhausted, c, s) =>
    { takeCalls := c, sleeps := s, dispatched := [], fatal := false }
termination_by script.length
decreasing_by exact getNextAction_found_length hg

/-- `pack.handleCommands` from `flyte/commands.go`: only when the pack
declares at least one command does it spawn `handleCommandActions` (which
builds the handlers map once and runs the poll loop); with zero commands it
returns at once, so no `TakeAction` call is ever made. -/
def handleCommands (commands : List Command) (script : List TakeActionResult) : LoopTrace :=
  if commands.length > 0 then
    pollLoop (createHandlersMap commands) script
  else
    { takeCalls := 0, sleeps := 0, dispatched := [], fatal := false }

/-- How `pack.Start` from `flyte/pack.go` ends against a finite script of
`register()` results: `running registerCalls sleeps dispatcherStarts` when
some registration attempt succeeded (after which `handleCommands` and the
health-check server are started), or `stuckRetrying registerCalls` when the
script ran out while it was still retrying. -/
inductive StartOutcome where
  | running : Nat → Nat → Nat → StartOutcome
  | stuckRetrying : Nat → StartOutcome
  deriving DecidableEq, Repr

/-- `pack.Start` from `flyte/pack.go`, run against a finite script of
`register()` results (`none` = success, `some msg` = error). On error it
logs, sleeps the fixed `registerRetryWait` and recurses into `Start`, then
returns — so the dispatcher is started only by the recursion level whose
registration succeeded, exactly once. -/
def Start : List (Option String) → StartOutcome
  | [] => .stuckRetrying 0
  | none :: _ => .running 1 0 1
  | some _ :: rest =>
    match Start rest with
    | .running c s d => .running (c + 1) (s + 1) d
    | .stuckRetrying c => .stuckRetrying (c + 1)

/-- The remote client's `PostEvent` operation as `pack.SendEvent` sees it:
an oracle from the posted wire event to an optional error. -/
abbrev PostEventOracle : Type := ClientEvent → Option ClientError

/-- `pack.SendEvent` from `flyte/pack.go`: converts the pack event to the
wire shape and forwards it to `client.PostEvent` once, returning that
call's error value unmodified. -/
def SendEvent (postEvent : PostEventOracle) (event : Event) : Option ClientError :=
  postEvent { name := event.eventDef.name, payload := event.payload }

/-- The lifecycle of one spawned action-execution unit
(`go p.handleAction(a, handlers)`): spawned but not yet scheduled, running
the handler, or finished (handler returned / completion posted). -/
inductive TaskPhase where
  | spawned
  | running
  | finished
  deriving DecidableEq, Repr

/-- A scheduler state of the dispatcher: the actions the server will still
hand out to the (single, sequential) poll loop, and the spawned execution
units in spawn order with their phases. -/
structure DispatchState where
  queue : List Action
  tasks : List (Action × TaskPhase)
  deriving DecidableEq, Repr

/-- One interleaving step of the dispatcher, from `handleCommandActions`:
the poll loop may fetch the next action and spawn a new execution unit for
it (regardless of the phases of existing units — the loop never waits on
them), and any spawned/running unit may make progress independently. -/
inductive DispatchStep : DispatchState → DispatchState → Prop
  | poll (a : Action) (q : List Action) (ts : List (Action × TaskPhase)) :
      DispatchStep ⟨a :: q, ts⟩ ⟨q, ts ++ [(a, .spawned)]⟩
  | startTask (q : List Action) (ts : List (Action × TaskPhase)) (i : Nat) (a : Action)
      (h : ts[i]? = some (a, .spawned)) :
      DispatchStep ⟨q, ts⟩ ⟨q, ts.set i (a, .running)⟩
  | finishTask (q : List Action) (ts : List (Action × TaskPhase)) (i : Nat) (a : Action)
      (h : ts[i]? = some (a, .running)) :
      DispatchStep ⟨q, ts⟩ ⟨q, ts.set i (a, .finished)⟩

/-- Reachability under dispatcher interleaving steps. -/
abbrev DispatchReaches : DispatchState → DispatchState → Prop :=
  Relation.ReflTransGen DispatchStep

/-! ### Helper lemmas about `getNextAction` and `pollLoop` -/

theorem getNextAction_cons_action (a : Action) (s : List TakeActionResult) :
    getNextAction ((some a, none) :: s) = (.found a s, 1, 0) := rfl

theorem getNextAction_cons_notFound (x : Option Action) (m : String)
    (s : List TakeActionResult) :
    getNextAction ((x, some (ClientError.notFound m)) :: s) = (.fatal, 1, 0) := by
  cases x <;> rfl

theorem getNextAction_cons_retryable {r : TakeActionResult} (s : List TakeActionResult)
    (h : retryable r = true) :
    getNextAction (r :: s) =
      ((getNextAction s).1, (getNextAction s).2.1 + 1, (getNextAction s).2.2 + 1) := by
  rcases r with ⟨oa, oe⟩
  match oa, oe with
  | _, some (ClientError.notFound m) => simp [retryable] at h
  | some a, none => simp [retryable] at h
  | none, none => rfl
  | none, some (ClientError.other m) => rfl
  | some a, some (ClientError.other m) => rfl

theorem getNextAction_retryable_append (pre s : List TakeActionResult)
    (h : ∀ r ∈ pre, retryable r = true) :
    getNextAction (pre ++ s) =
      ((getNextAction s).1, (getNextAction s).2.1 + pre.length,
        (getNextAction s).2.2 + pre.length) := by
  induction pre with
  | nil => simp
  | cons r pre ih =>
    have hr : retryable r = true := h r (List.mem_cons_self r pre)
    have hrest : ∀ x ∈ pre, retryable x = true := fun x hx => h x (List.mem_cons_of_mem r hx)
    rw [List.cons_append, getNextAction_cons_retryable (pre ++ s) hr, ih hrest]
    simp [Nat.add_assoc]

theorem pollLoop_eq_found (h : HandlersMap) {script : List TakeActionResult} {a : Action}
    {rest : List TakeActionResult} {c s : Nat}
    (hg : getNextAction script = (.found a rest, c, s)) :
    pollLoop h script =
      { takeCalls := c + (pollLoop h rest).takeCalls,
        sleeps := s + (pollLoop h rest).sleeps,
        dispatched := a :: (pollLoop h rest).dispatched,
        fatal := (pollLoop h rest).fatal } := by
  rw [pollLoop.eq_def]
  split
  case _ a2 rest2 c2 s2 heq =>
    rw [hg] at heq
    cases heq
    rfl
  case _ c2 s2 heq =>
    rw [hg] at heq
    cases heq
  case _ c2 s2 heq =>
    rw [hg] at heq
    cases heq

theorem pollLoop_eq_fatal (h : HandlersMap) {script : List TakeActionResult} {c s : Nat}
    (hg : getNextAction script = (.fatal, c, s)) :
    pollLoop h script = { takeCalls := c, sleeps := s, dispatched := [], fatal := true } := by
  rw [pollLoop.eq_def]
  split
  case _ a2 rest2 c2 s2 heq =>
    rw [hg] at heq
    cases heq
  case _ c2 s2 heq =>
    rw [hg] at heq
    cases heq
    rfl
  case _ c2 s2 heq =>
    rw [hg] at heq
    cases heq

theorem pollLoop_eq_exhausted (h : HandlersMap) {script : List TakeActionResult} {c s : Nat}
    (hg : getNextAction script = (.exhausted, c, s)) :
    pollLoop h script = { takeCalls := c, sleeps := s, dispatched := [], fatal := false } := by
  rw [pollLoop.eq_def]
  split
  case _ a2 rest2 c2 s2 heq =>
    rw [hg] at heq
    cases heq
  case _ c2 s2 heq =>
    rw [hg] at heq
    cases heq
  case _ c2 s2 heq =>
    rw [hg] at heq
    cases heq
    rfl

theorem pollLoop_handlers_bounded : ∀ (n : Nat) (s : List TakeActionResult), s.length ≤ n →
    ∀ (h1 h2 : HandlersMap), pollLoop h1 s = pollLoop h2 s := by
  intro n
  induction n with
  | zero =>
    intro s hs h1 h2
    have hs0 : s = [] := List.length_eq_zero.mp (Nat.le_zero.mp hs)
    subst hs0
    have hg : getNextAction [] = (.exhausted, 0, 0) := rfl
    rw [pollLoop_eq_exhausted h1 hg, pollLoop_eq_exhausted h2 hg]
  | succ n ih =>
    intro s hs h1 h2
    rcases hg : getNextAction s with ⟨o, c, k⟩
    cases o with
    | found a rest =>
      have hlen := getNextAction_found_length hg
      rw [pollLoop_eq_found h1 hg, pollLoop_eq_found h2 hg,
        ih rest (by omega) h1 h2]
    | fatal => rw [pollLoop_eq_fatal h1 hg, pollLoop_eq_fatal h2 hg]
    | exhausted => rw [pollLoop_eq_exhausted h1 hg, pollLoop_eq_exhausted h2 hg]

/-- The poll loop's control flow never reads the handlers map: its trace is
the same whatever handlers the spawned execution units are given. -/
theorem pollLoop_handlers_agnostic (h1 h2 : HandlersMap) (s : List TakeActionResult) :
    pollLoop h1 s = pollLoop h2 s :=
  pollLoop_handlers_bounded s.length s le_rfl h1 h2

theorem pollLoop_cons_retryable (h : HandlersMap) {r : TakeActionResult}
    (s : List TakeActionResult) (hr : retryable r = true) :
    pollLoop h (r :: s) =
      { takeCalls := (pollLoop h s).takeCalls + 1,
        sleeps := (pollLoop h s).sleeps + 1,
        dispatched := (pollLoop h s).dispatched,
        fatal := (pollLoop h s).fatal } := by
  rcases hg : getNextAction s with ⟨o, c, k⟩
  have hcons : getNextAction (r :: s) = (o, c + 1, k + 1) := by
    rw [getNextAction_cons_retryable s hr, hg]
  cases o with
  | found a rest =>
    rw [pollLoop_eq_found h hcons, pollLoop_eq_found h hg]
    simp [Nat.add_right_comm]
  | fatal =>
    rw [pollLoop_eq_fatal h hcons, pollLoop_eq_fatal h hg]
  | exhausted =>
    rw [pollLoop_eq_exhausted h hcons, pollLoop_eq_exhausted h hg]

/-! ### Helper lemmas about the handlers map -/

theorem lookupHandler_mapWrite (m : HandlersMap) (k : String) (v : CommandHandler)
    (k2 : String) :
    lookupHandler (mapWrite m k v) k2 = if k2 = k then some v else lookupHandler m k2 := by
  unfold mapWrite lookupHandler
  by_cases hany : m.any (fun p => p.1 == k) = true
  · simp only [hany, if_true]
    rw [List.find?_map]
    by_cases hk : k2 = k
    · subst hk
      have hpred : ((fun p : String × CommandHandler => p.1 == k2) ∘
          (fun p => if p.1 == k2 then (k2, v) else p)) =
          fun q : String × CommandHandler => q.1 == k2 := by
        funext q
        by_cases hq : q.1 = k2 <;> simp [hq]
      rw [hpred]
      rcases List.any_eq_true.mp hany with ⟨q, hqm, hqk⟩
      have hsome : (m.find? fun q : String × CommandHandler => q.1 == k2).isSome :=
        List.find?_isSome.mpr ⟨q, hqm, hqk⟩
      rcases Option.isSome_iff_exists.mp hsome with ⟨q0, hq0⟩
      have hq0k := List.find?_some hq0
      rw [hq0]
      simp only [beq_iff_eq] at hq0k
      simp [hq0k]
    · have hpred : ((fun p : String × CommandHandler => p.1 == k2) ∘
          (fun p => if p.1 == k then (k, v) else p)) =
          fun q : String × CommandHandler => q.1 == k2 := by
        funext q
        by_cases hq : q.1 = k
        · simp [Function.comp, hq, Ne.symm hk]
        · simp [Function.comp, hq]
      rw [hpred]
      rcases hf : m.find? (fun q : String × CommandHandler => q.1 == k2) with _ | q
      · simp [hk]
      · have hq2 := List.find?_some hf
        rw [beq_iff_eq] at hq2
        have hqne : ¬(q.1 = k) := fun hqk => hk (by rw [← hq2, hqk])
        simp [hk, hqne]
  · have hany2 : m.any (fun p => p.1 == k) = false := Bool.eq_false_iff.mpr hany
    simp only [hany2, Bool.false_eq_true, if_false]
    rw [List.find?_append]
    have hnoneall : ∀ p ∈ m, ¬((p.1 == k) = true) := by
      intro p hp hpk
      exact hany (List.any_eq_true.mpr ⟨p, hp, hpk⟩)
    by_cases hk : k2 = k
    · subst hk
      have hnone : m.find? (fun p : String × CommandHandler => p.1 == k2) = none :=
        List.find?_eq_none.mpr hnoneall
      rw [hnone]
      simp
    · have hone : List.find? (fun p : String × CommandHandler => p.1 == k2) [(k, v)] = none := by
        simp
        intro hkk2
        exact absurd hkk2.symm hk
      rw [hone]
      simp [hk]

theorem lookupHandler_foldl (commands : List Command) :
    ∀ (init : HandlersMap) (n : String),
    lookupHandler (commands.foldl (fun m c => mapWrite m c.name c.handler) init) n =
      ((commands.reverse.find? (fun c => c.name == n)).map Command.handler).or
        (lookupHandler init n) := by
  induction commands with
  | nil =>
    intro init n
    simp
  | cons c commands ih =>
    intro init n
    rw [List.foldl_cons, ih, List.reverse_cons, List.find?_append, lookupHandler_mapWrite]
    rcases hf : commands.reverse.find? (fun c => c.name == n) with _ | c0
    · rw [hf]
      by_cases hc : c.name = n
      · simp [hc]
      · have hcn : ¬(n = c.name) := fun h => hc h.symm
        simp [hc, hcn]
    · rw [hf]
      simp

theorem handlersMapText_keys (m1 m2 : HandlersMap)
    (hkeys : m2.map Prod.fst = m1.map Prod.fst) :
    handlersMapText m2 = handlersMapText m1 := by
  unfold handlersMapText
  rw [hkeys]

theorem lookupHandler_none_of_keys (m1 m2 : HandlersMap)
    (hkeys : m2.map Prod.fst = m1.map Prod.fst) (k : String)
    (h : lookupHandler m1 k = none) : lookupHandler m2 k = none := by
  unfold lookupHandler at h ⊢
  have h1 : m1.find? (fun p : String × CommandHandler => p.1 == k) = none := by
    rcases hf : m1.find? (fun p : String × CommandHandler => p.1 == k) with _ | q
    · rfl
    · rw [hf] at h
      simp at h
  rw [List.find?_eq_none] at h1
  have h2 : m2.find? (fun p : String × CommandHandler => p.1 == k) = none := by
    rw [List.find?_eq_none]
    intro p hp hpk
    have hmem : p.1 ∈ m1.map Prod.fst := by
      rw [← hkeys]
      exact List.mem_map_of_mem Prod.fst hp
    rcases List.mem_map.mp hmem with ⟨q, hq, hq1⟩
    exact h1 q hq (by rw [hq1]; exact hpk)
  rw [h2]
  rfl

/-! ### Claim theorems -/

/-- C1: for every fetched action whose registered handler panics with any
value `v`, `handleAction` completes that action with a Fatal Event whose
payload is the textual representation of `v` (`fmt.Sprintf` with `%v`),
and the panic does not propagate: `handleAction` yields a completion (it
is total), and the poll loop's trace is the same whatever the handlers do,
so the poll loop and the other independently-running executions are
unaffected. -/
theorem panicking_handler_completes_with_fatal_event
    (handlers : HandlersMap) (a : Action) (h : CommandHandler) (v : GoValue)
    (hlook : lookupHandler handlers a.commandName = some h)
    (hpanic : h a.input = HandlerOutcome.panics v) :
    handleAction handlers a =
      { name := fatalEventName, payload := GoValue.str (formatV v) } ∧
    ∀ (h2 : HandlersMap) (script : List TakeActionResult),
      pollLoop handlers script = pollLoop h2 script := by
  constructor
  · simp [handleAction, handleActionBody, hlook, hpanic, handlePanic, completeAction,
      NewFatalEvent]
  · intro h2 script
    exact pollLoop_handlers_agnostic handlers h2 script

/-- Witness for C1 at a concrete panicking handler. -/
theorem panicking_handler_completes_with_fatal_event_witness :
    handleAction [("boom", fun _ => HandlerOutcome.panics (GoValue.str "kaboom"))]
      { commandName := "boom", input := "x", links := [] } =
      { name := fatalEventName, payload := GoValue.str "kaboom" } ∧
    pollLoop [("boom", fun _ => HandlerOutcome.panics (GoValue.str "kaboom"))] [] =
      pollLoop [] [] := by
  have h := panicking_handler_completes_with_fatal_event
    [("boom", fun _ => HandlerOutcome.panics (GoValue.str "kaboom"))]
    { commandName := "boom", input := "x", links := [] }
    (fun _ => HandlerOutcome.panics (GoValue.str "kaboom")) (GoValue.str "kaboom") rfl rfl
  exact ⟨h.1, h.2 [] []⟩

/-- C2: for every fetched action whose command name has no entry in the
handlers map, `handleAction` completes the action with a Fatal Event
carrying the descriptive no-handler message; no handler is invoked (the
outcome is unchanged under any replacement of the handler functions that
keeps the same keys), and the poll loop's trace does not depend on the
handlers, so polling continues. -/
theorem missing_handler_completes_with_fatal_event
    (handlers : HandlersMap) (a : Action)
    (hlook : lookupHandler handlers a.commandName = none) :
    handleAction handlers a =
      { name := fatalEventName,
        payload := GoValue.str (noHandlerMessage a.commandName handlers) } ∧
    (∀ h2 : HandlersMap, h2.map Prod.fst = handlers.map Prod.fst →
      handleAction h2 a = handleAction handlers a) ∧
    ∀ (h2 : HandlersMap) (script : List TakeActionResult),
      pollLoop handlers script = pollLoop h2 script := by
  refine ⟨?_, ?_, ?_⟩
  · simp [handleAction, handleActionBody, hlook, handlePanic, completeAction, NewFatalEvent]
  · intro h2 hkeys
    have hlook2 := lookupHandler_none_of_keys handlers h2 hkeys a.commandName hlook
    simp [handleAction, handleActionBody, hlook, hlook2, handlePanic, completeAction,
      NewFatalEvent, noHandlerMessage, handlersMapText_keys handlers h2 hkeys]
  · intro h2 script
    exact pollLoop_handlers_agnostic handlers h2 script

/-- Witness for C2 at a concrete unregistered command name. -/
theorem missing_handler_completes_with_fatal_event_witness :
    handleAction [("alpha", fun _ => HandlerOutcome.returns (NewFatalEvent (GoValue.str "y")))]
      { commandName := "beta", input := "x", links := [] } =
      { name := fatalEventName,
        payload := GoValue.str (noHandlerMessage "beta"
          [("alpha", fun _ => HandlerOutcome.returns (NewFatalEvent (GoValue.str "y")))]) } ∧
    handleAction [("alpha", fun _ => HandlerOutcome.panics (GoValue.int 0))]
      { commandName := "beta", input := "x", links := [] } =
      handleAction [("alpha", fun _ => HandlerOutcome.returns (NewFatalEvent (GoValue.str "y")))]
        { commandName := "beta", input := "x", links := [] } ∧
    pollLoop [("alpha", fun _ => HandlerOutcome.returns (NewFatalEvent (GoValue.str "y")))] [] =
      pollLoop [] [] := by
  have h := missing_handler_completes_with_fatal_event
    [("alpha", fun _ => HandlerOutcome.returns (NewFatalEvent (GoValue.str "y")))]
    { commandName := "beta", input := "x", links := [] } rfl
  exact ⟨h.1, h.2.1 [("alpha", fun _ => HandlerOutcome.panics (GoValue.int 0))] rfl, h.2.2 [] []⟩

/-- C3: whenever `TakeAction` yields a `NotFoundError` (after any number of
retryable results), the dispatcher halts: the trace records exactly the
calls up to and including the fatal one — nothing from the remaining
script is ever requested — and no action is dispatched or completed. -/
theorem not_found_halts_polling
    (handlers : HandlersMap) (pre : List TakeActionResult) (x : Option Action)
    (msg : String) (rest : List TakeActionResult)
    (hpre : ∀ r ∈ pre, retryable r = true) :
    pollLoop handlers (pre ++ (x, some (ClientError.notFound msg)) :: rest) =
      { takeCalls := pre.length + 1, sleeps := pre.length,
        dispatched := [], fatal := true } := by
  have hg : getNextAction (pre ++ (x, some (ClientError.notFound msg)) :: rest) =
      (.fatal, pre.length + 1, pre.length) := by
    rw [getNextAction_retryable_append pre _ hpre, getNextAction_cons_notFound]
    simp [Nat.add_comm]
  exact pollLoop_eq_fatal handlers hg

/-- Witness for C3: one empty poll, then a not-found error, with a further
pending action that is never fetched. -/
theorem not_found_halts_polling_witness :
    pollLoop [] ([((none, none) : TakeActionResult)] ++
        (none, some (ClientError.notFound "gone")) ::
        [(some { commandName := "c", input := "i", links := [] }, none)]) =
      { takeCalls := 2, sleeps := 1, dispatched := [], fatal := true } := by
  have h := not_found_halts_polling [] [((none, none) : TakeActionResult)] none "gone"
    [(some { commandName := "c", input := "i", links := [] }, none)]
    (by
      intro r hr
      rw [List.mem_singleton] at hr
      subst hr
      rfl)
  exact h

/-- C4: with `n` "nothing pending" results (nil action, nil error) and then
an action, `getNextAction` issues exactly `n + 1` `TakeAction` calls and
sleeps the fixed interval after each of the `n` empty results before
returning the action for dispatch; a transient error behaves the same way
(fixed-interval retry, no backoff growth). -/
theorem empty_polls_then_action_counts (n : Nat) (a : Action)
    (rest : List TakeActionResult) (msg : String) :
    getNextAction (List.replicate n ((none, none) : TakeActionResult) ++
        (some a, none) :: rest) =
      (.found a rest, n + 1, n) ∧
    getNextAction (List.replicate n ((none, some (ClientError.other msg)) :
        TakeActionResult) ++ (some a, none) :: rest) =
      (.found a rest, n + 1, n) := by
  constructor
  · rw [getNextAction_retryable_append _ _
      (by
        intro r hr
        rw [List.eq_of_mem_replicate hr]
        rfl),
      getNextAction_cons_action]
    simp [Nat.add_comm]
  · rw [getNextAction_retryable_append _ _
      (by
        intro r hr
        rw [List.eq_of_mem_replicate hr]
        rfl),
      getNextAction_cons_action]
    simp [Nat.add_comm]

/-- C5: when registration fails `k` times and then succeeds, `Start` makes
exactly `k + 1` registration calls, sleeping the fixed retry wait after
each of the `k` failures, and starts the dispatcher exactly once (in the
recursion level whose registration succeeded). -/
theorem registration_retries_until_success (k : Nat) (e : String)
    (rest : List (Option String)) :
    Start (List.replicate k (some e) ++ none :: rest) =
      .running (k + 1) k 1 := by
  induction k with
  | zero =>
    rfl
  | succ k ih =>
    rw [List.replicate_succ, List.cons_append]
    simp only [Start, ih]

/-- C6: the dispatcher polls iff the pack declares at least one command:
with an empty command list `handleCommands` returns at once and no
`TakeAction` call is ever made, and with a non-empty list it runs the poll
loop over the handlers map built once by `createHandlersMap`. -/
theorem dispatcher_polls_iff_commands_declared (commands : List Command)
    (script : List TakeActionResult) :
    (commands = [] →
      handleCommands commands script =
        { takeCalls := 0, sleeps := 0, dispatched := [], fatal := false }) ∧
    (commands ≠ [] →
      handleCommands commands script = pollLoop (createHandlersMap commands) script) := by
  constructor
  · intro h
    subst h
    rfl
  · intro h
    unfold handleCommands
    rw [if_pos (List.length_pos.mpr h)]

/-- Witness for C6 at an empty and a singleton command list. -/
theorem dispatcher_polls_iff_commands_declared_witness :
    handleCommands [] [((none, none) : TakeActionResult)] =
      { takeCalls := 0, sleeps := 0, dispatched := [], fatal := false } ∧
    handleCommands [⟨"shout", fun _ => HandlerOutcome.returns (NewFatalEvent (GoValue.str "w"))⟩]
        [] =
      pollLoop (createHandlersMap
        [⟨"shout", fun _ => HandlerOutcome.returns (NewFatalEvent (GoValue.str "w"))⟩]) [] :=
  ⟨(dispatcher_polls_iff_commands_declared [] [(none, none)]).1 rfl,
   (dispatcher_polls_iff_commands_declared
      [⟨"shout", fun _ => HandlerOutcome.returns (NewFatalEvent (GoValue.str "w"))⟩] []).2
      (List.cons_ne_nil _ _)⟩

/-- C7: `SendEvent` forwards the event name and payload to the client's
post-event operation exactly once and returns that call's error value
unmodified. -/
theorem send_event_forwards_error_unmodified (postEvent : PostEventOracle)
    (event : Event) (r : Option ClientError)
    (h : postEvent { name := event.eventDef.name, payload := event.payload } = r) :
    SendEvent postEvent event = r := by
  unfold SendEvent
  exact h

/-- Witness for C7 at a concrete oracle and event. -/
theorem send_event_forwards_error_unmodified_witness :
    SendEvent (fun e => some (ClientError.other e.name))
      { eventDef := { name := "ping" }, payload := GoValue.int 1 } =
      some (ClientError.other "ping") :=
  send_event_forwards_error_unmodified
    (fun e => some (ClientError.other e.name))
    { eventDef := { name := "ping" }, payload := GoValue.int 1 }
    (some (ClientError.other "ping")) rfl

/-- C8: after fetching an action the poll loop spawns an independent
execution unit and immediately polls again, so for any two back-to-back
actions there is an interleaving in which the second action's execution is
running while the first's has not even started (in particular its handler
has not returned). -/
theorem second_action_can_run_before_first_finishes (a1 a2 : Action) :
    DispatchReaches { queue := [a1, a2], tasks := [] }
      { queue := [], tasks := [(a1, .spawned), (a2, .running)] } := by
  have s1 : DispatchStep ⟨[a1, a2], []⟩ ⟨[a2], [(a1, .spawned)]⟩ :=
    DispatchStep.poll a1 [a2] []
  have s2 : DispatchStep ⟨[a2], [(a1, .spawned)]⟩ ⟨[], [(a1, .spawned), (a2, .spawned)]⟩ :=
    DispatchStep.poll a2 [] [(a1, .spawned)]
  have s3 : DispatchStep ⟨[], [(a1, .spawned), (a2, .spawned)]⟩
      ⟨[], [(a1, .spawned), (a2, .running)]⟩ :=
    DispatchStep.startTask [] [(a1, .spawned), (a2, .spawned)] 1 a2 rfl
  exact Relation.ReflTransGen.head s1
    (Relation.ReflTransGen.head s2 (Relation.ReflTransGen.single s3))

/-- C9: `createHandlersMap` resolves duplicate command names by keeping the
last declaration in list order: looking a name up in the built map gives
exactly the handler of the last command with that name (and `handleAction`
routes through this lookup, so earlier duplicate handlers are never
invoked). -/
theorem duplicate_command_names_last_wins (commands : List Command) (n : String) :
    lookupHandler (createHandlersMap commands) n =
      (commands.reverse.find? (fun c => c.name == n)).map Command.handler := by
  rw [createHandlersMap, lookupHandler_foldl]
  simp [lookupHandler]

/-- C10: on HTTP 200 with a failing JSON decode, `TakeAction` returns a
non-nil action together with a non-nil error; the poll loop treats this as
a failed poll — one more call, one more sleep, and the partially decoded
action never enters the dispatched list. -/
theorem decode_error_action_discarded (body : String)
    (decode : String → Action × Option String) (a : Action) (msg : String)
    (hdec : decode body = (a, some msg)) :
    TakeAction true (.ok { statusCode := 200, body := body }) decode =
      (some a, some (ClientError.other msg)) ∧
    ∀ (handlers : HandlersMap) (script : List TakeActionResult),
      pollLoop handlers ((some a, some (ClientError.other msg)) :: script) =
        { takeCalls := (pollLoop handlers script).takeCalls + 1,
          sleeps := (pollLoop handlers script).sleeps + 1,
          dispatched := (pollLoop handlers script).dispatched,
          fatal := (pollLoop handlers script).fatal } := by
  constructor
  · simp [TakeAction, hdec]
  · intro handlers script
    exact pollLoop_cons_retryable handlers script rfl

/-- Witness for C10 at a concrete body whose decode fails. -/
theorem decode_error_action_discarded_witness :
    TakeAction true (.ok { statusCode := 200, body := "bad json" })
        (fun _ => ({ commandName := "", input := "", links := [] }, some "unexpected EOF")) =
      (some { commandName := "", input := "", links := [] },
        some (ClientError.other "unexpected EOF")) ∧
    pollLoop [] [(some { commandName := "", input := "", links := [] },
        some (ClientError.other "unexpected EOF"))] =
      { takeCalls := 1, sleeps := 1, dispatched := [], fatal := false } := by
  have h := decode_error_action_discarded "bad json"
    (fun _ => ({ commandName := "", input := "", links := [] }, some "unexpected EOF"))
    { commandName := "", input := "", links := [] } "unexpected EOF" rfl
  have h0 : pollLoop ([] : HandlersMap) [] =
      { takeCalls := 0, sleeps := 0, dispatched := [], fatal := false } :=
    pollLoop_eq_exhausted [] rfl
  refine ⟨h.1, ?_⟩
  rw [h.2 [] [], h0]

end Flyte
